import Mathlib

/-!
Verification development for the DTCC security-token-offering backend.

Part 1 embeds the event-sourced state reducer of
`backend/ingestion/event_ingestor.py` together with the entity rows of
`backend/models/issuance_models.py`.  Django tables are lists of rows,
`update_or_create` / `get_or_create` become explicit list operations keyed
by the natural key, and each event handler is a pure function from a
payload and the current store to the next store.  The ambient clock
(`django.utils.timezone.now()`) is passed in explicitly as an integer;
`dict.get` of a nullable field becomes an `Option`.
-/

namespace Issuance

/-- Python `str.lower` restricted to ASCII letters, which is how the
ingestor normalizes hex wallet addresses before any lookup or write. -/
def pyCharLower (c : Char) : Char :=
  if 65 ≤ c.toNat ∧ c.toNat ≤ 90 then Char.ofNat (c.toNat + 32) else c

/-- Python `str.lower` on a whole string (ASCII range). -/
def pyLower (s : String) : String :=
  String.mk (s.data.map pyCharLower)

/-- Row of the `Identifier` table: unique natural key `internal_asset_id`,
optional external codes. -/
structure Identifier where
  internal_asset_id : Option String
  isin : Option String
  lei : Option String
  upi : Option String
  cusip : Option String
  clearstream_id : Option String
  euroclear_id : Option String
deriving Repr, DecidableEq

/-- Row of the `Offering` table.  The foreign key to `Identifier` is
represented by the natural key of that row.  `total_committed`,
`total_units_issued` default to 0, `is_finalized` to `false`. -/
structure Offering where
  internal_asset_id : Option String
  offering_type : String
  max_raise_amount : Int
  lockup_period : Int
  start_timestamp : Int
  end_timestamp : Int
  base_currency : String
  identifier : Option String
  total_committed : Int
  total_units_issued : Int
  is_finalized : Bool
  finalized_at : Option Int
  last_event_tx_hash : Option String
deriving Repr, DecidableEq

/-- Row of the `Investor` table, keyed by the lower-cased wallet address. -/
structure Investor where
  wallet_address : String
  jurisdiction : Option String
  kyc_passed : Bool
  aml_passed : Bool
  last_event_tx_hash : Option String
deriving Repr, DecidableEq

/-- Append-only `Commitment` row.  The foreign key to `Investor` is the
wallet-address key. -/
structure Commitment where
  investor : String
  amount : Int
  currency : String
  payment_reference : String
  tx_hash : Option String
  committed_at : Int
deriving Repr, DecidableEq

/-- Append-only `UnitsIssued` row. -/
structure UnitsIssuedRow where
  investor : String
  units : Int
  lockup_release : Int
  isin : Option String
  lei : Option String
  upi : Option String
  identifier : Option String
  tx_hash : Option String
  issued_at : Int
deriving Repr, DecidableEq

/-- Append-only `SettlementRecord` row.  The Django model declares exactly
these value fields (plus an auto `created_at`); in particular it has no
settlement-status column. -/
structure SettlementRecordRow where
  investor : String
  units : Int
  settlement_system : String
  external_reference : String
  tx_hash : Option String
  settled_at : Int
deriving Repr, DecidableEq

/-- The column names of the Django `SettlementRecord` model, copied from
`backend/models/issuance_models.py`. -/
def settlementRecordColumns : List String :=
  ["investor", "units", "settlement_system", "external_reference",
   "tx_hash", "settled_at", "created_at"]

/-- The whole entity store: one list of rows per table. -/
structure Store where
  identifiers : List Identifier
  offerings : List Offering
  investors : List Investor
  commitments : List Commitment
  units_issued : List UnitsIssuedRow
  settlements : List SettlementRecordRow
deriving Repr, DecidableEq

def emptyStore : Store := ⟨[], [], [], [], [], []⟩

/-- Django `Model.objects.update_or_create(key, defaults)`: if a row with
the natural key exists it is updated in place with the defaults, otherwise
a fresh row is appended. -/
def upsertBy {A K : Type} [DecidableEq K] (keyOf : A → K) (k : K)
    (upd : A → A) (new : A) (rows : List A) : List A :=
  match rows.find? (fun a => decide (keyOf a = k)) with
  | some _ => rows.map (fun a => if keyOf a = k then upd a else a)
  | none => rows ++ [new]

/-- Django `Model.objects.get_or_create(key)`: an existing row is returned
untouched, otherwise a fresh row with model defaults is appended. -/
def getOrCreateBy {A K : Type} [DecidableEq K] (keyOf : A → K) (k : K)
    (new : A) (rows : List A) : List A :=
  match rows.find? (fun a => decide (keyOf a = k)) with
  | some _ => rows
  | none => rows ++ [new]

/-- The nested `identifiers` object carried by `OfferingConfigured` and
`UnitsIssued` payloads. -/
structure IdentifiersData where
  internal_asset_id : Option String
  isin : Option String
  lei : Option String
  upi : Option String
  cusip : Option String
  clearstream_id : Option String
  euroclear_id : Option String
deriving Repr, DecidableEq

structure OfferingConfiguredPayload where
  identifiers : IdentifiersData
  offering_type : String
  max_raise_amount : Int
  lockup_period : Int
  start_timestamp : Int
  end_timestamp : Int
  base_currency : String
  transaction_hash : Option String
deriving Repr, DecidableEq

structure InvestorWhitelistedPayload where
  investor : String
  jurisdiction : Option String
  kyc_passed : Option Bool
  aml_passed : Option Bool
  transaction_hash : Option String
deriving Repr, DecidableEq

structure CommitmentRecordedPayload where
  investor : String
  amount : Int
  currency : String
  payment_reference : String
  transaction_hash : Option String
deriving Repr, DecidableEq

structure UnitsIssuedPayload where
  investor : String
  units : Int
  lockup_release : Int
  identifiers : IdentifiersData
  transaction_hash : Option String
deriving Repr, DecidableEq

structure SettlementRecordedPayload where
  investor : String
  units : Int
  settlement_system : String
  external_reference : String
  transaction_hash : Option String
deriving Repr, DecidableEq

structure FinalizedPayload where
  transaction_hash : Option String
  total_committed : Int
  total_units_issued : Int
  finalized_at : Option Int
deriving Repr, DecidableEq

/-- The `defaults` dict applied to an existing `Identifier` row by
`handle_offering_configured` (the natural key itself is not among the
defaults, so it is never rewritten). -/
def identifierUpdate (ids : IdentifiersData) (i : Identifier) : Identifier :=
  { i with isin := ids.isin, lei := ids.lei, upi := ids.upi,
           cusip := ids.cusip, clearstream_id := ids.clearstream_id,
           euroclear_id := ids.euroclear_id }

/-- A fresh `Identifier` row created by `handle_offering_configured`. -/
def identifierNew (ids : IdentifiersData) : Identifier :=
  { internal_asset_id := ids.internal_asset_id, isin := ids.isin, lei := ids.lei,
    upi := ids.upi, cusip := ids.cusip, clearstream_id := ids.clearstream_id,
    euroclear_id := ids.euroclear_id }

/-- The `defaults` dict applied to an existing `Offering` row by
`handle_offering_configured`: configuration fields, the identifier
reference and `last_event_tx_hash`; totals and the finalization state are
not among the defaults. -/
def offeringUpdate (p : OfferingConfiguredPayload) (o : Offering) : Offering :=
  { o with offering_type := p.offering_type,
           max_raise_amount := p.max_raise_amount,
           lockup_period := p.lockup_period,
           start_timestamp := p.start_timestamp,
           end_timestamp := p.end_timestamp,
           base_currency := p.base_currency,
           identifier := p.identifiers.internal_asset_id,
           last_event_tx_hash := p.transaction_hash }

/-- A fresh `Offering` row created by `handle_offering_configured`, with
the model defaults for totals, `is_finalized` and `finalized_at`. -/
def offeringNew (p : OfferingConfiguredPayload) : Offering :=
  { internal_asset_id := p.identifiers.internal_asset_id,
    offering_type := p.offering_type,
    max_raise_amount := p.max_raise_amount,
    lockup_period := p.lockup_period,
    start_timestamp := p.start_timestamp,
    end_timestamp := p.end_timestamp,
    base_currency := p.base_currency,
    identifier := p.identifiers.internal_asset_id,
    total_committed := 0,
    total_units_issued := 0,
    is_finalized := false,
    finalized_at := none,
    last_event_tx_hash := p.transaction_hash }

/-- Handler `handle_offering_configured`: upsert the `Identifier` row keyed by
`identifiers.internal_asset_id`, then upsert the `Offering` row keyed by
the same id, overwriting the configuration fields and `last_event_tx_hash`
while leaving totals and the finalization flag to their current (or
default) values. -/
def handle_offering_configured (p : OfferingConfiguredPayload) (s : Store) : Store :=
  { s with
    identifiers :=
      upsertBy Identifier.internal_asset_id p.identifiers.internal_asset_id
        (identifierUpdate p.identifiers) (identifierNew p.identifiers)
        s.identifiers,
    offerings :=
      upsertBy Offering.internal_asset_id p.identifiers.internal_asset_id
        (offeringUpdate p) (offeringNew p) s.offerings }

/-- The `defaults` dict applied to an existing `Investor` row by
`handle_investor_whitelisted`. -/
def investorUpdate (p : InvestorWhitelistedPayload) (i : Investor) : Investor :=
  { i with jurisdiction := p.jurisdiction,
           kyc_passed := p.kyc_passed.getD false,
           aml_passed := p.aml_passed.getD false,
           last_event_tx_hash := p.transaction_hash }

/-- A fresh `Investor` row created by `handle_investor_whitelisted`. -/
def investorNew (p : InvestorWhitelistedPayload) : Investor :=
  { wallet_address := pyLower p.investor, jurisdiction := p.jurisdiction,
    kyc_passed := p.kyc_passed.getD false,
    aml_passed := p.aml_passed.getD false,
    last_event_tx_hash := p.transaction_hash }

/-- Handler `handle_investor_whitelisted`: upsert the `Investor` row keyed by the
lower-cased wallet, overwriting jurisdiction, KYC/AML flags (defaulting to
false when absent from the payload) and `last_event_tx_hash`. -/
def handle_investor_whitelisted (p : InvestorWhitelistedPayload) (s : Store) : Store :=
  { s with
    investors :=
      upsertBy Investor.wallet_address (pyLower p.investor)
        (investorUpdate p) (investorNew p) s.investors }

/-- A fresh `Investor` row with model defaults, as produced by
`get_or_create(wallet_address=wallet)`. -/
def defaultInvestor (w : String) : Investor :=
  { wallet_address := w, jurisdiction := none, kyc_passed := false,
    aml_passed := false, last_event_tx_hash := none }

/-- Handler `handle_commitment_recorded`: get-or-create the investor by lower-cased
wallet, then append one `Commitment` row stamped with the apply-time
clock. -/
def handle_commitment_recorded (p : CommitmentRecordedPayload) (now : Int) (s : Store) : Store :=
  let w := pyLower p.investor
  let investors' := getOrCreateBy Investor.wallet_address w (defaultInvestor w) s.investors
  { s with investors := investors',
           commitments := s.commitments ++
             [{ investor := w, amount := p.amount, currency := p.currency,
                payment_reference := p.payment_reference,
                tx_hash := p.transaction_hash, committed_at := now }] }

/-- Truthiness of the optional `internal_asset_id` string, as tested by
`if internal_asset_id:` in `handle_units_issued` (None and "" are falsy). -/
def truthyId : Option String → Option String
  | some s => if s = "" then none else some s
  | none => none

/-- Handler `handle_units_issued`: get-or-create the investor, get-or-create the
`Identifier` when the payload carries a truthy asset id, then append one
`UnitsIssued` row. -/
def handle_units_issued (p : UnitsIssuedPayload) (now : Int) (s : Store) : Store :=
  let w := pyLower p.investor
  let investors' := getOrCreateBy Investor.wallet_address w (defaultInvestor w) s.investors
  let ids := p.identifiers
  let assetId := truthyId ids.internal_asset_id
  let identifiers' :=
    match assetId with
    | some aid => getOrCreateBy Identifier.internal_asset_id (some aid)
        { internal_asset_id := some aid, isin := none, lei := none, upi := none,
          cusip := none, clearstream_id := none, euroclear_id := none }
        s.identifiers
    | none => s.identifiers
  { s with investors := investors',
           identifiers := identifiers',
           units_issued := s.units_issued ++
             [{ investor := w, units := p.units, lockup_release := p.lockup_release,
                isin := ids.isin, lei := ids.lei, upi := ids.upi,
                identifier := assetId, tx_hash := p.transaction_hash,
                issued_at := now }] }

/-- Handler `handle_settlement_recorded`: get-or-create the investor, then append
one `SettlementRecord` row with exactly the fields set by the reducer. -/
def handle_settlement_recorded (p : SettlementRecordedPayload) (now : Int) (s : Store) : Store :=
  let w := pyLower p.investor
  let investors' := getOrCreateBy Investor.wallet_address w (defaultInvestor w) s.investors
  { s with investors := investors',
           settlements := s.settlements ++
             [{ investor := w, units := p.units,
                settlement_system := p.settlement_system,
                external_reference := p.external_reference,
                tx_hash := p.transaction_hash, settled_at := now }] }

/-- The per-row update applied by `handle_finalized` to a matching
`Offering`. -/
def finalizeRow (p : FinalizedPayload) (o : Offering) : Offering :=
  { o with total_committed := p.total_committed,
           total_units_issued := p.total_units_issued,
           finalized_at := p.finalized_at,
           is_finalized := true }

/-- Handler `handle_finalized`: a bulk `filter(last_event_tx_hash=tx_hash).update(...)`
over the `Offering` table; rows whose `last_event_tx_hash` equals the
payload `transaction_hash` get the payload totals, `finalized_at` and
`is_finalized=True`; all other rows and tables are untouched. -/
def handle_finalized (p : FinalizedPayload) (s : Store) : Store :=
  { s with offerings := s.offerings.map (fun o =>
      if o.last_event_tx_hash = p.transaction_hash then finalizeRow p o else o) }

/-- A decoded inbound event, tagged as in the `EVENT_HANDLERS` registry;
`Unknown` stands for a payload whose `event` field is missing or has no
registered handler. -/
inductive Event where
  | OfferingConfigured (p : OfferingConfiguredPayload)
  | InvestorWhitelisted (p : InvestorWhitelistedPayload)
  | CommitmentRecorded (p : CommitmentRecordedPayload)
  | UnitsIssued (p : UnitsIssuedPayload)
  | SettlementRecorded (p : SettlementRecordedPayload)
  | Finalized (p : FinalizedPayload)
  | Unknown (name : Option String)
deriving Repr, DecidableEq

/-- Dispatch gateway `ingest_event`: dispatch on the event name; unknown or missing names
are a silent no-op. -/
def ingest_event (now : Int) (e : Event) (s : Store) : Store :=
  match e with
  | .OfferingConfigured p => handle_offering_configured p s
  | .InvestorWhitelisted p => handle_investor_whitelisted p s
  | .CommitmentRecorded p => handle_commitment_recorded p now s
  | .UnitsIssued p => handle_units_issued p now s
  | .SettlementRecorded p => handle_settlement_recorded p now s
  | .Finalized p => handle_finalized p s
  | .Unknown _ => s

/-- Fold a stream of events into the store in dispatch order. -/
def ingest_events (now : Int) (es : List Event) (s : Store) : Store :=
  es.foldl (fun s' e => ingest_event now e s') s

end Issuance

/-!
Part 2 embeds the CSD reconciliation service of
`backend/services/csd_reconciliation.py`.  The service imports `CSDSystem`,
`InvestorPosition` and `SettlementStatus` from the models module, which
does not define them, and it reads attributes (`external_ref`, `units`,
`settlement_date`, `investor_address`, `csd_system`, `csd_security_id`,
`metadata`) that the Django models do not declare; those record shapes are
reconstructed below from the spec and from the attribute
accesses and the example construction in the service itself.  The one HTTP call an adapter may issue
is abstracted as an oracle argument: an `Except`, whose `error` case stands
for a raised transport exception (connection failure, timeout), carrying an
`HttpResponse` whose body is itself an `Except` standing for the result of
`response.json()` (its `error` case a raised parse exception).  Each
adapter returns the `(bool, Optional[str])` pair of the code together with the
number of HTTP calls it issued, so that "no network call" is visible in
the model; request construction has no observable effect here because the
response is supplied by the oracle, so it is not modelled field by field.
-/

namespace Recon

/-- Modelled from the spec: the `CSDSystem` enum is imported by the
reconciliation service from the models module, where it is not defined.
Spec section 4.4 requires unsupported systems to yield a distinct outcome,
so an extra `OTHER` constructor carries any member outside the four
adapters, keeping the final `else` branch of the service reachable. -/
inductive CSDSystem where
  | CLEARSTREAM
  | EUROCLEAR
  | DTCC
  | DPO_GLOBAL
  | OTHER (v : String)
deriving Repr, DecidableEq

/-- The `.value` string of each enum member, as used for credential
lookups and error messages. -/
def CSDSystem.value : CSDSystem → String
  | .CLEARSTREAM => "CLEARSTREAM"
  | .EUROCLEAR => "EUROCLEAR"
  | .DTCC => "DTCC"
  | .DPO_GLOBAL => "DPO_GLOBAL"
  | .OTHER v => v

/-- A JSON scalar as it appears in provider response bodies.  Numbers are
modelled as integers (the quantities the service compares are whole unit
counts). -/
inductive JVal where
  | jnum (n : Int)
  | jstr (s : String)
  | jbool (b : Bool)
  | jnull
deriving Repr, DecidableEq

/-- A JSON object body: field names to scalar values. -/
def JObj : Type := List (String × JVal)

instance : DecidableEq JObj := inferInstanceAs (DecidableEq (List (String × JVal)))

/-- Python `dict.get(k)` on a JSON object. -/
def JObj.get (o : JObj) (k : String) : Option JVal :=
  (o.find? (fun kv => decide (kv.1 = k))).map (fun kv => kv.2)

/-- Python `str(...)` on a JSON scalar. -/
def pyStr : JVal → String
  | .jnum n => toString n
  | .jstr s => s
  | .jbool true => "True"
  | .jbool false => "False"
  | .jnull => "None"

/-- Python truthiness of a JSON scalar, as used by
`result.get("matched", False)` and `result.get("verified", False)`. -/
def jTruthy : JVal → Bool
  | .jnum n => decide (n ≠ 0)
  | .jstr s => decide (s ≠ "")
  | .jbool b => b
  | .jnull => false

instance : Repr JObj := inferInstanceAs (Repr (List (String × JVal)))

instance exceptDecEq {ε α : Type} [DecidableEq ε] [DecidableEq α] :
    DecidableEq (Except ε α) := fun x y =>
  match x, y with
  | .ok a, .ok b =>
    if h : a = b then isTrue (by rw [h])
    else isFalse (by intro hh; cases hh; exact h rfl)
  | .ok _, .error _ => isFalse (by intro hh; cases hh)
  | .error _, .ok _ => isFalse (by intro hh; cases hh)
  | .error e, .error f =>
    if h : e = f then isTrue (by rw [h])
    else isFalse (by intro hh; cases hh; exact h rfl)

/-- An HTTP response: status code, and the outcome of `response.json()`
(`error` = the parse raised). -/
structure HttpResponse where
  status_code : Nat
  body : Except String JObj
deriving DecidableEq

/-- The outcome of the one HTTP call an adapter may issue: `error` = the
call raised (transport failure, timeout). -/
def NetResult : Type := Except String HttpResponse

instance : DecidableEq NetResult := inferInstanceAs (DecidableEq (Except String HttpResponse))

/-- Credential record of one provider (`api_key` / `endpoint`). -/
structure Creds where
  api_key : Option String
  endpoint : Option String
deriving Repr, DecidableEq

/-- The `api_credentials` dict of the service: CSD system name to credentials. -/
def CredMap : Type := List (String × Creds)

instance : DecidableEq CredMap := inferInstanceAs (DecidableEq (List (String × Creds)))

/-- Membership test `name in self.credentials`. -/
def CredMap.hasKey (creds : CredMap) (name : String) : Bool :=
  (creds.find? (fun kv => decide (kv.1 = name))).isSome

/-- Modelled from the spec: the settlement record consumed by the
reconciliation service (the pydantic-style `SettlementRecord` it imports
is absent from the models module); fields are those the service reads and
those the example flow constructs. -/
structure RSettlementRecord where
  investor_address : String
  units : String
  settlement_system : CSDSystem
  external_ref : String
  settlement_date : Int
  block_number : Int
  transaction_hash : String
deriving Repr, DecidableEq

/-- Modelled from the spec: the `CSDMapping` consumed by the reconciliation
service (its `csd_system`, `csd_security_id` and `metadata` attributes are
absent from the Django model); fields are those the service reads and its
example flow constructs. -/
structure RCSDMapping where
  csd_system : CSDSystem
  csd_security_id : Option String
  metadata : JObj
  active : Bool
deriving Repr, DecidableEq

/-- An adapter verdict: the `(bool, Optional[str])` the Python methods
return, paired with how many HTTP calls were issued. -/
def AdapterResult : Type := (Bool × Option String) × Nat

instance : DecidableEq AdapterResult :=
  inferInstanceAs (DecidableEq ((Bool × Option String) × Nat))

/-- The `try:` body of `_reconcile_clearstream`: credentials check, one GET
to `/settlements/verify`, then the 200-branch quantity comparison
`str(csd_data.get("quantity", "0")) == record.units`.  A thrown network or
parse exception propagates out of this body. -/
def clearstream_try (creds : CredMap) (record : RSettlementRecord)
    (_mapping : RCSDMapping) (net : NetResult) :
    Except String ((Bool × Option String) × Nat) :=
  if ¬ creds.hasKey CSDSystem.CLEARSTREAM.value then
    .ok ((false, some "Clearstream credentials not configured"), 0)
  else
    match net with
    | .error e => .error e
    | .ok response =>
      if response.status_code = 200 then
        match response.body with
        | .error e => .error e
        | .ok csd_data =>
          let csd_units := pyStr ((csd_data.get "quantity").getD (.jstr "0"))
          if csd_units = record.units then
            .ok ((true, none), 1)
          else
            .ok ((false, some ("Unit mismatch: on-chain=" ++ record.units ++
                               ", CSD=" ++ csd_units)), 1)
      else
        .ok ((false, some ("Clearstream API error: " ++
                           toString response.status_code)), 1)

/-- Method `_reconcile_clearstream`: the body above under its `except Exception`
clause, which converts any raised error into a `(False, message)` pair.
When the except clause fires the one HTTP call had been issued. -/
def reconcile_clearstream (creds : CredMap) (record : RSettlementRecord)
    (mapping : RCSDMapping) (net : NetResult) : AdapterResult :=
  match clearstream_try creds record mapping net with
  | .ok r => r
  | .error e => ((false, some ("Clearstream reconciliation failed: " ++ e)), 1)

/-- The `try:` body of `_reconcile_euroclear`: credentials check, one POST
to `/v1/settlement/verify`, then the 200-branch `result.get("matched",
False)` truthiness check. -/
def euroclear_try (creds : CredMap) (_record : RSettlementRecord)
    (_mapping : RCSDMapping) (net : NetResult) :
    Except String ((Bool × Option String) × Nat) :=
  if ¬ creds.hasKey CSDSystem.EUROCLEAR.value then
    .ok ((false, some "Euroclear credentials not configured"), 0)
  else
    match net with
    | .error e => .error e
    | .ok response =>
      if response.status_code = 200 then
        match response.body with
        | .error e => .error e
        | .ok result =>
          if jTruthy ((result.get "matched").getD (.jbool false)) then
            .ok ((true, none), 1)
          else
            .ok ((false, some ("Euroclear mismatch: " ++
                    pyStr ((result.get "reason").getD (.jstr "Unknown")))), 1)
      else
        .ok ((false, some ("Euroclear API error: " ++
                           toString response.status_code)), 1)

/-- Method `_reconcile_euroclear` with its exception clause. -/
def reconcile_euroclear (creds : CredMap) (record : RSettlementRecord)
    (mapping : RCSDMapping) (net : NetResult) : AdapterResult :=
  match euroclear_try creds record mapping net with
  | .ok r => r
  | .error e => ((false, some ("Euroclear reconciliation failed: " ++ e)), 1)

/-- Method `_reconcile_dtcc`: credentials check, then the placeholder success; it
issues no HTTP call. -/
def reconcile_dtcc (creds : CredMap) (_record : RSettlementRecord)
    (_mapping : RCSDMapping) (_net : NetResult) : AdapterResult :=
  if ¬ creds.hasKey CSDSystem.DTCC.value then
    ((false, some "DTCC credentials not configured"), 0)
  else
    ((true, none), 0)

/-- The `try:` body of `_reconcile_dpo_global`: credentials check, one POST
to `/api/v1/settlements/verify`, then the 200-branch `result.get("verified",
False)` truthiness check.  On a non-verified 200 the source returns the raw
JSON value of `result.get("error", "Verification failed")` in the message
slot; it is rendered here by its Python string form. -/
def dpo_global_try (creds : CredMap) (_record : RSettlementRecord)
    (_mapping : RCSDMapping) (net : NetResult) :
    Except String ((Bool × Option String) × Nat) :=
  if ¬ creds.hasKey CSDSystem.DPO_GLOBAL.value then
    .ok ((false, some "DPO Global credentials not configured"), 0)
  else
    match net with
    | .error e => .error e
    | .ok response =>
      if response.status_code = 200 then
        match response.body with
        | .error e => .error e
        | .ok result =>
          if jTruthy ((result.get "verified").getD (.jbool false)) then
            .ok ((true, none), 1)
          else
            .ok ((false, some (pyStr ((result.get "error").getD
                      (.jstr "Verification failed")))), 1)
      else
        .ok ((false, some ("DPO Global API error: " ++
                           toString response.status_code)), 1)

/-- Method `_reconcile_dpo_global` with its exception clause. -/
def reconcile_dpo_global (creds : CredMap) (record : RSettlementRecord)
    (mapping : RCSDMapping) (net : NetResult) : AdapterResult :=
  match dpo_global_try creds record mapping net with
  | .ok r => r
  | .error e => ((false, some ("DPO Global reconciliation failed: " ++ e)), 1)

/-- Method `reconcile_settlement`: route on `csd_mapping.csd_system` to the
matching adapter; any other system yields the "Unsupported CSD system"
failure.  Its own `except Exception` clause cannot fire in this model
because every adapter already catches its exceptions, matching the claim
that adapters never propagate raw exceptions to the engine. -/
def reconcile_settlement (creds : CredMap) (record : RSettlementRecord)
    (mapping : RCSDMapping) (net : NetResult) : AdapterResult :=
  match mapping.csd_system with
  | .CLEARSTREAM => reconcile_clearstream creds record mapping net
  | .EUROCLEAR => reconcile_euroclear creds record mapping net
  | .DTCC => reconcile_dtcc creds record mapping net
  | .DPO_GLOBAL => reconcile_dpo_global creds record mapping net
  | .OTHER v => ((false, some ("Unsupported CSD system: " ++ v)), 0)

/-- One batch item: a settlement record, its CSD mapping, and the oracle
for the HTTP call its verification would issue. -/
structure BPair where
  record : RSettlementRecord
  mapping : RCSDMapping
  net : NetResult

/-- One entry of the batch result dict:
`{"success": ..., "error": ...}`. -/
structure BEntry where
  success : Bool
  error : Option String
deriving Repr, DecidableEq

/-- The result-dict entry produced for one pair by
`reconcile_with_semaphore`. -/
def mkEntry (r : Bool × Option String) : BEntry := ⟨r.1, r.2⟩

/-- Python dict assignment `d[k] = v`: replace in place if the key exists,
else append. -/
def dinsert : List (String × BEntry) → String → BEntry → List (String × BEntry)
  | [], k, v => [(k, v)]
  | (k0, v0) :: rest, k, v =>
    if k0 = k then (k0, v) :: rest else (k0, v0) :: dinsert rest k v

/-- Python dict lookup `d[k]` (as an `Option`). -/
def dlookup : List (String × BEntry) → String → Option BEntry
  | [], _ => none
  | (k0, v0) :: rest, k => if k0 = k then some v0 else dlookup rest k

/-- The `(external_ref, entry)` pair task `i` resolves to, one per batch
item, in task order. -/
def batchEntries (creds : CredMap) (records : List BPair) : List (String × BEntry) :=
  records.map (fun pr =>
    (pr.record.external_ref, mkEntry (reconcile_settlement creds pr.record pr.mapping pr.net).1))

/-- Method `batch_reconcile`: build one task per `(record, mapping)` pair, await
them all with `asyncio.gather`, then fill the result dict.  `gather`
stores the result of each task at the index of the task and returns the list in
task-submission order, so the completion permutation `sched` (the order in
which tasks happen to finish under the scheduler) does not affect the list
it returns; the dict is therefore written in task order.  No task result is
an exception here — `reconcile_settlement` catches everything — so the
`isinstance(result, Exception)` arm never fires. -/
def batch_reconcile (creds : CredMap) (records : List BPair)
    (_sched : List Nat) : List (String × BEntry) :=
  (batchEntries creds records).foldl (fun results rd => dinsert results rd.1 rd.2) []

/-- The batch entries listed in completion order: `sched` lists task
indices in the order they finish. -/
def completionOrderEntries (creds : CredMap) (records : List BPair)
    (sched : List Nat) : List (String × BEntry) :=
  sched.filterMap (fun i => (batchEntries creds records).get? i)

/-- This definition follows the spec words, not the source: the result
map the spec describes when it says the later-COMPLETING result overwrites
the earlier for a duplicated external reference, i.e. the dict written in
completion order rather than in task order.  It is compared with
`batch_reconcile` to settle the last-write-wins direction. -/
def spec_byCompletionMap (creds : CredMap) (records : List BPair)
    (sched : List Nat) : List (String × BEntry) :=
  (completionOrderEntries creds records sched).foldl
    (fun results rd => dinsert results rd.1 rd.2) []

end Recon

/-!
Part 3: helper lemmas about the store primitives (`upsertBy`,
`getOrCreateBy`) and the Python-dict operations (`dinsert`, `dlookup`)
used by the claim theorems.
-/

namespace Issuance

/-- Number of rows carrying a given natural key. -/
def countKey {A K : Type} [DecidableEq K] (keyOf : A → K) (k : K)
    (rows : List A) : Nat :=
  rows.countP (fun a => decide (keyOf a = k))

theorem upsertBy_preserves {A K : Type} [DecidableEq K] (keyOf : A → K) (k : K)
    (upd : A → A) (new : A) (rows : List A) (P : A → Prop)
    (hupdP : ∀ a, P a → P (upd a)) (hupdK : ∀ a, keyOf (upd a) = keyOf a) :
    ∀ a ∈ rows, P a →
      ∃ a' ∈ upsertBy keyOf k upd new rows, keyOf a' = keyOf a ∧ P a' := by
  intro a ha hP
  unfold upsertBy
  cases hfind : rows.find? (fun a => decide (keyOf a = k)) with
  | some b =>
    refine ⟨if keyOf a = k then upd a else a, List.mem_map_of_mem _ ha, ?_, ?_⟩
    · split
      · exact hupdK a
      · rfl
    · split
      · exact hupdP a hP
      · exact hP
  | none =>
    exact ⟨a, List.mem_append_left _ ha, rfl, hP⟩

theorem upsertBy_forall {A K : Type} [DecidableEq K] (keyOf : A → K) (k : K)
    (upd : A → A) (new : A) (rows : List A) (P : A → Prop)
    (hrows : ∀ a ∈ rows, P a) (hupd : ∀ a, P a → P (upd a)) (hnew : P new) :
    ∀ a ∈ upsertBy keyOf k upd new rows, P a := by
  intro a ha
  unfold upsertBy at ha
  cases hfind : rows.find? (fun a => decide (keyOf a = k)) with
  | some b =>
    rw [hfind] at ha
    obtain ⟨b', hb', rfl⟩ := List.mem_map.mp ha
    split
    · exact hupd b' (hrows b' hb')
    · exact hrows b' hb'
  | none =>
    rw [hfind] at ha
    rcases List.mem_append.mp ha with h | h
    · exact hrows a h
    · rw [List.mem_singleton.mp h]; exact hnew

theorem upsertBy_upsertBy {A K : Type} [DecidableEq K] (keyOf : A → K) (k : K)
    (upd : A → A) (new : A) (rows : List A)
    (hknew : keyOf new = k)
    (hkupd : ∀ a, keyOf (upd a) = keyOf a)
    (hupd2 : ∀ a, upd (upd a) = upd a)
    (hupdnew : upd new = new) :
    upsertBy keyOf k upd new (upsertBy keyOf k upd new rows)
      = upsertBy keyOf k upd new rows := by
  unfold upsertBy
  cases hfind : rows.find? (fun a => decide (keyOf a = k)) with
  | some b =>
    have hb : b ∈ rows := List.mem_of_find?_eq_some hfind
    have hbk : keyOf b = k := by
      have := List.find?_some hfind
      exact of_decide_eq_true this
    have hmem : (if keyOf b = k then upd b else b)
        ∈ rows.map (fun a => if keyOf a = k then upd a else a) :=
      List.mem_map_of_mem _ hb
    have hkey : keyOf (if keyOf b = k then upd b else b) = k := by
      rw [if_pos hbk, hkupd, hbk]
    have hfind2 : (rows.map (fun a => if keyOf a = k then upd a else a)).find?
        (fun a => decide (keyOf a = k)) ≠ none := by
      intro hnone
      have := List.find?_eq_none.mp hnone _ hmem
      simp [hkey] at this
    cases hfind2' : (rows.map (fun a => if keyOf a = k then upd a else a)).find?
        (fun a => decide (keyOf a = k)) with
    | none => exact absurd hfind2' hfind2
    | some c =>
      rw [List.map_map]
      apply List.map_congr_left
      intro a _
      by_cases hak : keyOf a = k
      · simp only [Function.comp, if_pos hak, hkupd, if_pos hak, hupd2]
      · simp only [Function.comp, if_neg hak]
  | none =>
    have hall : ∀ a ∈ rows, keyOf a ≠ k := by
      intro a ha hk'
      have := List.find?_eq_none.mp hfind _ ha
      simp [hk'] at this
    have hfind2 : (rows ++ [new]).find? (fun a => decide (keyOf a = k))
        = some new := by
      rw [List.find?_append, hfind]
      simp [hknew]
    rw [hfind2]
    have : (rows ++ [new]).map (fun a => if keyOf a = k then upd a else a)
        = rows ++ [new] := by
      rw [List.map_append]
      congr 1
      · have hcongr : rows.map (fun a => if keyOf a = k then upd a else a)
            = rows.map id :=
          List.map_congr_left (fun a ha => by rw [if_neg (hall a ha)]; rfl)
        rw [hcongr, List.map_id]
      · simp [hknew, hupdnew]
    rw [this]

end Issuance

namespace Issuance

theorem countKey_upsertBy {A K : Type} [DecidableEq K] (keyOf : A → K) (k : K)
    (upd : A → A) (new : A) (rows : List A)
    (hknew : keyOf new = k)
    (hkupd : ∀ a, keyOf (upd a) = keyOf a)
    (hle : countKey keyOf k rows ≤ 1) :
    countKey keyOf k (upsertBy keyOf k upd new rows) = 1 := by
  unfold upsertBy countKey
  cases hfind : rows.find? (fun a => decide (keyOf a = k)) with
  | some b =>
    have hb : b ∈ rows := List.mem_of_find?_eq_some hfind
    have hbk : keyOf b = k := by
      have hp := List.find?_some hfind
      exact of_decide_eq_true hp
    have hsame : (rows.map (fun a => if keyOf a = k then upd a else a)).countP
        (fun a => decide (keyOf a = k)) = rows.countP (fun a => decide (keyOf a = k)) := by
      rw [List.countP_map]
      apply List.countP_congr
      intro a _
      by_cases hak : keyOf a = k
      · simp [Function.comp, if_pos hak, hkupd, hak]
      · simp [Function.comp, if_neg hak, hak]
    rw [hsame]
    have hpos : 0 < rows.countP (fun a => decide (keyOf a = k)) :=
      List.countP_pos_iff.mpr ⟨b, hb, by simp [hbk]⟩
    unfold countKey at hle
    omega
  | none =>
    have hz : rows.countP (fun a => decide (keyOf a = k)) = 0 := by
      apply List.countP_eq_zero.mpr
      intro a ha
      have := List.find?_eq_none.mp hfind _ ha
      simpa using this
    rw [List.countP_append, hz]
    simp [hknew]

theorem getOrCreateBy_of_exists {A K : Type} [DecidableEq K] (keyOf : A → K)
    (k : K) (new : A) (rows : List A)
    (hex : ∃ a ∈ rows, keyOf a = k) :
    getOrCreateBy keyOf k new rows = rows := by
  unfold getOrCreateBy
  obtain ⟨a, ha, hk⟩ := hex
  cases hfind : rows.find? (fun a => decide (keyOf a = k)) with
  | some _ => rfl
  | none =>
    have := List.find?_eq_none.mp hfind _ ha
    simp [hk] at this

theorem upsertBy_of_not_exists {A K : Type} [DecidableEq K] (keyOf : A → K)
    (k : K) (upd : A → A) (new : A) (rows : List A)
    (h : ∀ a ∈ rows, keyOf a ≠ k) :
    upsertBy keyOf k upd new rows = rows ++ [new] := by
  unfold upsertBy
  cases hfind : rows.find? (fun a => decide (keyOf a = k)) with
  | some b =>
    have hb : b ∈ rows := List.mem_of_find?_eq_some hfind
    have hbk : keyOf b = k := by
      have hp := List.find?_some hfind
      exact of_decide_eq_true hp
    exact absurd hbk (h b hb)
  | none => rfl

end Issuance

namespace Recon

theorem dlookup_dinsert (m : List (String × BEntry)) (k : String) (v : BEntry)
    (k' : String) :
    dlookup (dinsert m k v) k' = if k = k' then some v else dlookup m k' := by
  induction m with
  | nil => simp [dinsert, dlookup]
  | cons kv rest ih =>
    obtain ⟨k0, v0⟩ := kv
    by_cases h0 : k0 = k
    · subst h0
      by_cases h1 : k0 = k'
      · subst h1
        simp [dinsert, dlookup]
      · simp [dinsert, dlookup, h1]
    · by_cases h1 : k0 = k'
      · subst h1
        have hne : ¬ k = k0 := fun h => h0 h.symm
        simp [dinsert, dlookup, h0, hne]
      · simp [dinsert, dlookup, h0, h1, ih]

theorem dlookup_fold (es : List (String × BEntry)) (acc : List (String × BEntry))
    (k : String) :
    dlookup (es.foldl (fun m rd => dinsert m rd.1 rd.2) acc) k
      = match es.reverse.find? (fun rd => decide (rd.1 = k)) with
        | some rd => some rd.2
        | none => dlookup acc k := by
  induction es generalizing acc with
  | nil => simp
  | cons rd es ih =>
    simp only [List.foldl_cons, List.reverse_cons]
    rw [ih, List.find?_append]
    cases hf : es.reverse.find? (fun rd => decide (rd.1 = k)) with
    | some rd' => simp
    | none =>
      simp only [Option.none_orElse]
      rw [dlookup_dinsert]
      by_cases h1 : rd.1 = k
      · simp [h1]
      · simp [h1, List.find?]

end Recon

namespace Issuance

/-- All offerings of a store have nonnegative running totals. -/
def nonnegOfferings (s : Store) : Prop :=
  ∀ o ∈ s.offerings, 0 ≤ o.total_committed ∧ 0 ≤ o.total_units_issued

/-- An event whose payload cannot introduce a negative total: only
`Finalized` writes the totals, copying them from its payload. -/
def nonnegEvent : Event → Bool
  | .Finalized p => decide (0 ≤ p.total_committed) && decide (0 ≤ p.total_units_issued)
  | _ => true

theorem step_finalized_persists (now : Int) (e : Event) (s : Store) :
    ∀ o ∈ s.offerings, o.is_finalized = true →
      ∃ o' ∈ (ingest_event now e s).offerings,
        o'.internal_asset_id = o.internal_asset_id ∧ o'.is_finalized = true := by
  intro o ho hfin
  cases e with
  | OfferingConfigured p =>
    exact upsertBy_preserves Offering.internal_asset_id
      p.identifiers.internal_asset_id (offeringUpdate p) (offeringNew p)
      s.offerings (fun o => o.is_finalized = true)
      (fun a hP => hP) (fun a => rfl) o ho hfin
  | InvestorWhitelisted p => exact ⟨o, ho, rfl, hfin⟩
  | CommitmentRecorded p => exact ⟨o, ho, rfl, hfin⟩
  | UnitsIssued p => exact ⟨o, ho, rfl, hfin⟩
  | SettlementRecorded p => exact ⟨o, ho, rfl, hfin⟩
  | Finalized p =>
    refine ⟨if o.last_event_tx_hash = p.transaction_hash then finalizeRow p o else o,
      List.mem_map_of_mem _ ho, ?_, ?_⟩
    · split <;> rfl
    · split
      · rfl
      · exact hfin
  | Unknown name => exact ⟨o, ho, rfl, hfin⟩

theorem step_nonneg (now : Int) (e : Event) (s : Store)
    (he : nonnegEvent e = true) (hs : nonnegOfferings s) :
    nonnegOfferings (ingest_event now e s) := by
  cases e with
  | OfferingConfigured p =>
    intro o ho
    exact upsertBy_forall Offering.internal_asset_id
      p.identifiers.internal_asset_id (offeringUpdate p) (offeringNew p)
      s.offerings
      (fun o => 0 ≤ o.total_committed ∧ 0 ≤ o.total_units_issued)
      hs (fun a hP => hP) ⟨le_refl 0, le_refl 0⟩ o ho
  | InvestorWhitelisted p => exact hs
  | CommitmentRecorded p => exact hs
  | UnitsIssued p => exact hs
  | SettlementRecorded p => exact hs
  | Finalized p =>
    intro o ho
    simp only [nonnegEvent, Bool.and_eq_true, decide_eq_true_eq] at he
    obtain ⟨o', ho', rfl⟩ := List.mem_map.mp ho
    split
    · exact ⟨he.1, he.2⟩
    · exact hs o' ho'
  | Unknown name => exact hs

theorem events_finalized_persists (now : Int) (es : List Event) (s : Store) :
    ∀ o ∈ s.offerings, o.is_finalized = true →
      ∃ o' ∈ (ingest_events now es s).offerings,
        o'.internal_asset_id = o.internal_asset_id ∧ o'.is_finalized = true := by
  induction es generalizing s with
  | nil => exact fun o ho hfin => ⟨o, ho, rfl, hfin⟩
  | cons e es ih =>
    intro o ho hfin
    obtain ⟨o1, ho1, hk1, hf1⟩ := step_finalized_persists now e s o ho hfin
    obtain ⟨o2, ho2, hk2, hf2⟩ := ih (ingest_event now e s) o1 ho1 hf1
    exact ⟨o2, ho2, hk2.trans hk1, hf2⟩

theorem events_nonneg (now : Int) (es : List Event) (s : Store)
    (hes : ∀ e ∈ es, nonnegEvent e = true) (hs : nonnegOfferings s) :
    nonnegOfferings (ingest_events now es s) := by
  induction es generalizing s with
  | nil => exact hs
  | cons e es ih =>
    exact ih (ingest_event now e s)
      (fun e' he' => hes e' (List.mem_cons_of_mem _ he'))
      (step_nonneg now e s (hes e (List.mem_cons_self _ _)) hs)

end Issuance

/-!
Part 4: the claim theorems.
-/

namespace Issuance

/-- C3: for every `Finalized` event with transaction hash h, the reducer
updates exactly those `Offering` rows whose `last_event_tx_hash` equals h,
setting `total_committed`, `total_units_issued` and `finalized_at` from
the payload and `is_finalized` to true; if no row matches, the event is a
silent no-op that leaves the store unchanged. -/
theorem handle_finalized_updates_exactly_matching_rows
    (p : FinalizedPayload) (s : Store) :
    ((handle_finalized p s).identifiers = s.identifiers ∧
     (handle_finalized p s).investors = s.investors ∧
     (handle_finalized p s).commitments = s.commitments ∧
     (handle_finalized p s).units_issued = s.units_issued ∧
     (handle_finalized p s).settlements = s.settlements) ∧
    (handle_finalized p s).offerings.length = s.offerings.length ∧
    (∀ i : Nat, ∀ hi : i < s.offerings.length,
      ∀ hi2 : i < (handle_finalized p s).offerings.length,
      ((s.offerings.get ⟨i, hi⟩).last_event_tx_hash = p.transaction_hash →
        (handle_finalized p s).offerings.get ⟨i, hi2⟩ =
          { s.offerings.get ⟨i, hi⟩ with
              total_committed := p.total_committed,
              total_units_issued := p.total_units_issued,
              finalized_at := p.finalized_at,
              is_finalized := true }) ∧
      ((s.offerings.get ⟨i, hi⟩).last_event_tx_hash ≠ p.transaction_hash →
        (handle_finalized p s).offerings.get ⟨i, hi2⟩ = s.offerings.get ⟨i, hi⟩)) ∧
    ((∀ o ∈ s.offerings, o.last_event_tx_hash ≠ p.transaction_hash) →
      handle_finalized p s = s) := by
  refine ⟨⟨rfl, rfl, rfl, rfl, rfl⟩, ?_, ?_, ?_⟩
  · simp [handle_finalized]
  · intro i hi hi2
    constructor
    · intro hmatch
      rw [List.get_eq_getElem] at hmatch
      simp only [handle_finalized, List.get_eq_getElem, List.getElem_map]
      rw [if_pos hmatch]
      rfl
    · intro hmatch
      rw [List.get_eq_getElem] at hmatch
      simp only [handle_finalized, List.get_eq_getElem, List.getElem_map]
      rw [if_neg hmatch]
  · intro hnone
    show ({ s with offerings := _ } : Store) = s
    have hmap : s.offerings.map (fun o =>
        if o.last_event_tx_hash = p.transaction_hash then finalizeRow p o else o)
        = s.offerings.map id :=
      List.map_congr_left (fun o ho => if_neg (hnone o ho))
    rw [hmap, List.map_id]

def c3off1 : Offering :=
  ⟨some "A", "REG_D", 100, 0, 0, 0, "USD", some "A", 0, 0, false, none, some "0xT1"⟩

def c3off2 : Offering :=
  ⟨some "B", "REG_S", 50, 0, 0, 0, "EUR", some "B", 0, 0, false, none, some "0xT2"⟩

def c3s : Store := { emptyStore with offerings := [c3off1, c3off2] }

def c3p : FinalizedPayload := ⟨some "0xT1", 7, 3, some 99⟩

def c3pNone : FinalizedPayload := ⟨some "0xZZ", 1, 1, none⟩

theorem handle_finalized_updates_exactly_matching_rows_witness :
    (handle_finalized c3p c3s).offerings.get ⟨0, by decide⟩ =
      { c3off1 with total_committed := 7, total_units_issued := 3,
                    finalized_at := some 99, is_finalized := true } ∧
    (handle_finalized c3p c3s).offerings.get ⟨1, by decide⟩ = c3off2 ∧
    handle_finalized c3pNone c3s = c3s := by
  refine ⟨?_, ?_, ?_⟩
  · exact ((handle_finalized_updates_exactly_matching_rows c3p c3s).2.2.1
      0 (by decide) (by decide)).1 (by decide)
  · exact ((handle_finalized_updates_exactly_matching_rows c3p c3s).2.2.1
      1 (by decide) (by decide)).2 (by decide)
  · exact (handle_finalized_updates_exactly_matching_rows c3pNone c3s).2.2.2
      (by decide)

/-- C7: applying the `OfferingConfigured` reducer twice with an identical
payload yields exactly one `Offering` row (and one `Identifier` row) for
that `internal_asset_id`, with field values identical to those produced by
applying it once.  The hypotheses state the unique constraints the
database enforces on the starting state. -/
theorem offering_configured_idempotent (p : OfferingConfiguredPayload) (s : Store)
    (hOff : countKey Offering.internal_asset_id p.identifiers.internal_asset_id
      s.offerings ≤ 1)
    (hId : countKey Identifier.internal_asset_id p.identifiers.internal_asset_id
      s.identifiers ≤ 1) :
    handle_offering_configured p (handle_offering_configured p s)
      = handle_offering_configured p s ∧
    countKey Offering.internal_asset_id p.identifiers.internal_asset_id
      (handle_offering_configured p s).offerings = 1 ∧
    countKey Identifier.internal_asset_id p.identifiers.internal_asset_id
      (handle_offering_configured p s).identifiers = 1 := by
  refine ⟨?_, ?_, ?_⟩
  · have h1 := upsertBy_upsertBy Identifier.internal_asset_id
      p.identifiers.internal_asset_id (identifierUpdate p.identifiers)
      (identifierNew p.identifiers) s.identifiers rfl (fun a => rfl)
      (fun a => rfl) rfl
    have h2 := upsertBy_upsertBy Offering.internal_asset_id
      p.identifiers.internal_asset_id (offeringUpdate p) (offeringNew p)
      s.offerings rfl (fun a => rfl) (fun a => rfl) rfl
    show ({ s with
      identifiers := upsertBy Identifier.internal_asset_id
        p.identifiers.internal_asset_id (identifierUpdate p.identifiers)
        (identifierNew p.identifiers)
        (upsertBy Identifier.internal_asset_id p.identifiers.internal_asset_id
          (identifierUpdate p.identifiers) (identifierNew p.identifiers)
          s.identifiers),
      offerings := upsertBy Offering.internal_asset_id
        p.identifiers.internal_asset_id (offeringUpdate p) (offeringNew p)
        (upsertBy Offering.internal_asset_id p.identifiers.internal_asset_id
          (offeringUpdate p) (offeringNew p) s.offerings) } : Store) = _
    rw [h1, h2]
    rfl
  · exact countKey_upsertBy Offering.internal_asset_id
      p.identifiers.internal_asset_id (offeringUpdate p) (offeringNew p)
      s.offerings rfl (fun a => rfl) hOff
  · exact countKey_upsertBy Identifier.internal_asset_id
      p.identifiers.internal_asset_id (identifierUpdate p.identifiers)
      (identifierNew p.identifiers) s.identifiers rfl (fun a => rfl) hId

def c7p : OfferingConfiguredPayload :=
  ⟨⟨some "ASSET-1", some "ISIN1", none, none, none, some "CS1", none⟩,
   "REG_D", 1000000, 180, 1700000000, 1800000000, "USD", some "0xCAFE"⟩

theorem offering_configured_idempotent_witness :
    handle_offering_configured c7p (handle_offering_configured c7p emptyStore)
      = handle_offering_configured c7p emptyStore ∧
    countKey Offering.internal_asset_id c7p.identifiers.internal_asset_id
      (handle_offering_configured c7p emptyStore).offerings = 1 ∧
    countKey Identifier.internal_asset_id c7p.identifiers.internal_asset_id
      (handle_offering_configured c7p emptyStore).identifiers = 1 :=
  offering_configured_idempotent c7p emptyStore (by decide) (by decide)

end Issuance

namespace Issuance

/-- C8: wallet addresses differing only in letter case resolve to the same
`Investor` row, because every reducer lower-cases the wallet before any
lookup or write: after `InvestorWhitelisted` for a wallet unknown to the
store, a `CommitmentRecorded` whose wallet lower-cases to the same key
creates no second `Investor` row, exactly one row carries the lower-cased
key, and the new `Commitment` references that key. -/
theorem wallet_case_normalization (pw : InvestorWhitelistedPayload)
    (pc : CommitmentRecordedPayload) (now : Int) (s : Store)
    (hk : pyLower pc.investor = pyLower pw.investor)
    (h0 : ∀ i ∈ s.investors, i.wallet_address ≠ pyLower pw.investor) :
    (handle_commitment_recorded pc now (handle_investor_whitelisted pw s)).investors
      = (handle_investor_whitelisted pw s).investors ∧
    countKey Investor.wallet_address (pyLower pw.investor)
      (handle_commitment_recorded pc now (handle_investor_whitelisted pw s)).investors
      = 1 ∧
    (handle_commitment_recorded pc now (handle_investor_whitelisted pw s)).commitments
      = s.commitments ++
        [{ investor := pyLower pw.investor, amount := pc.amount,
           currency := pc.currency, payment_reference := pc.payment_reference,
           tx_hash := pc.transaction_hash, committed_at := now }] := by
  have hI : (handle_investor_whitelisted pw s).investors
      = s.investors ++ [investorNew pw] :=
    upsertBy_of_not_exists Investor.wallet_address (pyLower pw.investor)
      (investorUpdate pw) (investorNew pw) s.investors h0
  have hmem : investorNew pw ∈ (handle_investor_whitelisted pw s).investors := by
    rw [hI]
    exact List.mem_append_right _ (List.mem_singleton_self _)
  have hg : getOrCreateBy Investor.wallet_address (pyLower pc.investor)
      (defaultInvestor (pyLower pc.investor))
      (handle_investor_whitelisted pw s).investors
      = (handle_investor_whitelisted pw s).investors :=
    getOrCreateBy_of_exists Investor.wallet_address (pyLower pc.investor)
      (defaultInvestor (pyLower pc.investor))
      (handle_investor_whitelisted pw s).investors
      ⟨investorNew pw, hmem, by rw [hk]; rfl⟩
  refine ⟨hg, ?_, ?_⟩
  · have h1 : countKey Investor.wallet_address (pyLower pw.investor)
        (handle_commitment_recorded pc now (handle_investor_whitelisted pw s)).investors
        = countKey Investor.wallet_address (pyLower pw.investor)
          (handle_investor_whitelisted pw s).investors :=
      congrArg (countKey Investor.wallet_address (pyLower pw.investor)) hg
    rw [h1, hI]
    unfold countKey
    rw [List.countP_append]
    have hz : s.investors.countP
        (fun a => decide (a.wallet_address = pyLower pw.investor)) = 0 :=
      List.countP_eq_zero.mpr (fun a ha => by simp [h0 a ha])
    rw [hz]
    simp [investorNew]
  · show (handle_investor_whitelisted pw s).commitments ++
        [{ investor := pyLower pc.investor, amount := pc.amount,
           currency := pc.currency, payment_reference := pc.payment_reference,
           tx_hash := pc.transaction_hash, committed_at := now }] = _
    rw [hk]
    rfl

def c8pw : InvestorWhitelistedPayload :=
  ⟨"0xABC", some "US", some true, some true, some "0xW1"⟩

def c8pc : CommitmentRecordedPayload :=
  ⟨"0xabc", 1000, "USD", "REF1", some "0xH1"⟩

theorem wallet_case_normalization_witness :
    (handle_commitment_recorded c8pc 0 (handle_investor_whitelisted c8pw emptyStore)).investors
      = (handle_investor_whitelisted c8pw emptyStore).investors ∧
    countKey Investor.wallet_address (pyLower c8pw.investor)
      (handle_commitment_recorded c8pc 0 (handle_investor_whitelisted c8pw emptyStore)).investors
      = 1 ∧
    (handle_commitment_recorded c8pc 0 (handle_investor_whitelisted c8pw emptyStore)).commitments
      = emptyStore.commitments ++
        [{ investor := pyLower c8pw.investor, amount := c8pc.amount,
           currency := c8pc.currency, payment_reference := c8pc.payment_reference,
           tx_hash := c8pc.transaction_hash, committed_at := 0 }] :=
  wallet_case_normalization c8pw c8pc 0 emptyStore (by decide) (by decide)

/-- C10: when a `CommitmentRecorded`, `UnitsIssued` or `SettlementRecorded`
event references a wallet whose `Investor` row already exists, the reducer
leaves the whole `Investor` table unchanged (in particular jurisdiction,
KYC/AML flags and `last_event_tx_hash` of that row), because it only
get-or-creates the row by key; `InvestorWhitelisted`, in contrast,
overwrites those fields on the row carrying the lower-cased key. -/
theorem get_or_create_preserves_investor_rows
    (pc : CommitmentRecordedPayload) (pu : UnitsIssuedPayload)
    (ps : SettlementRecordedPayload) (pw : InvestorWhitelistedPayload)
    (now : Int) (s : Store)
    (hexc : ∃ i ∈ s.investors, i.wallet_address = pyLower pc.investor)
    (hexu : ∃ i ∈ s.investors, i.wallet_address = pyLower pu.investor)
    (hexs : ∃ i ∈ s.investors, i.wallet_address = pyLower ps.investor) :
    (handle_commitment_recorded pc now s).investors = s.investors ∧
    (handle_units_issued pu now s).investors = s.investors ∧
    (handle_settlement_recorded ps now s).investors = s.investors ∧
    (∀ j ∈ (handle_investor_whitelisted pw s).investors,
      j.wallet_address = pyLower pw.investor →
        j.jurisdiction = pw.jurisdiction ∧
        j.kyc_passed = pw.kyc_passed.getD false ∧
        j.aml_passed = pw.aml_passed.getD false ∧
        j.last_event_tx_hash = pw.transaction_hash) := by
  refine ⟨?_, ?_, ?_, ?_⟩
  · exact getOrCreateBy_of_exists Investor.wallet_address (pyLower pc.investor)
      (defaultInvestor (pyLower pc.investor)) s.investors hexc
  · exact getOrCreateBy_of_exists Investor.wallet_address (pyLower pu.investor)
      (defaultInvestor (pyLower pu.investor)) s.investors hexu
  · exact getOrCreateBy_of_exists Investor.wallet_address (pyLower ps.investor)
      (defaultInvestor (pyLower ps.investor)) s.investors hexs
  · intro j hj hjk
    have hj' : j ∈ upsertBy Investor.wallet_address (pyLower pw.investor)
        (investorUpdate pw) (investorNew pw) s.investors := hj
    unfold upsertBy at hj'
    cases hfind : s.investors.find?
        (fun a => decide (a.wallet_address = pyLower pw.investor)) with
    | some b =>
      rw [hfind] at hj'
      obtain ⟨a, ha, rfl⟩ := List.mem_map.mp hj'
      by_cases hak : a.wallet_address = pyLower pw.investor
      · rw [if_pos hak]
        exact ⟨rfl, rfl, rfl, rfl⟩
      · rw [if_neg hak] at hjk ⊢
        exact absurd hjk hak
    | none =>
      rw [hfind] at hj'
      rcases List.mem_append.mp hj' with h | h
      · have := List.find?_eq_none.mp hfind _ h
        simp only [decide_eq_true_eq] at this
        exact absurd hjk this
      · rw [List.mem_singleton.mp h]
        exact ⟨rfl, rfl, rfl, rfl⟩

def c10inv : Investor := ⟨"0xaaa", some "DE", true, false, some "0xOld"⟩

def c10s : Store := { emptyStore with investors := [c10inv] }

def c10pc : CommitmentRecordedPayload := ⟨"0xAAA", 500, "EUR", "REF9", some "0xC"⟩

def c10pu : UnitsIssuedPayload :=
  ⟨"0xAaA", 10, 12345, ⟨some "ASSET-1", none, none, none, none, none, none⟩, some "0xU"⟩

def c10ps : SettlementRecordedPayload :=
  ⟨"0xaaa", 10, "CLEARSTREAM", "EXT-1", some "0xS"⟩

def c10pw : InvestorWhitelistedPayload :=
  ⟨"0xAAA", some "FR", some true, some true, some "0xN"⟩

theorem get_or_create_preserves_investor_rows_witness :
    (handle_commitment_recorded c10pc 0 c10s).investors = c10s.investors ∧
    (handle_units_issued c10pu 0 c10s).investors = c10s.investors ∧
    (handle_settlement_recorded c10ps 0 c10s).investors = c10s.investors ∧
    (∀ j ∈ (handle_investor_whitelisted c10pw c10s).investors,
      j.wallet_address = pyLower c10pw.investor →
        j.jurisdiction = c10pw.jurisdiction ∧
        j.kyc_passed = c10pw.kyc_passed.getD false ∧
        j.aml_passed = c10pw.aml_passed.getD false ∧
        j.last_event_tx_hash = c10pw.transaction_hash) :=
  get_or_create_preserves_investor_rows c10pc c10pu c10ps c10pw 0 c10s
    (by decide) (by decide) (by decide)

end Issuance

namespace Issuance

def c2p : SettlementRecordedPayload :=
  ⟨"0xAAA", 5, "CLEARSTREAM", "REF-1", some "0xH1"⟩

/-- C2 (code divergence): the row created by `handle_settlement_recorded`
for a concrete `SettlementRecorded` payload carries exactly the fields of
the Django model — investor key, units, settlement system, external
reference, transaction hash and settlement time — and the model declares
no settlement-status column at all, so no PENDING status is set at
creation. -/
theorem settlement_record_created_without_status :
    (handle_settlement_recorded c2p 0 emptyStore).settlements
      = [{ investor := "0xaaa", units := 5, settlement_system := "CLEARSTREAM",
           external_reference := "REF-1", tx_hash := some "0xH1",
           settled_at := 0 }] ∧
    "status" ∉ settlementRecordColumns ∧
    "settlement_status" ∉ settlementRecordColumns := by
  decide

/-- C1 (amended): once an `Offering` has `is_finalized = true` the flag
stays true under every subsequently dispatched event (the row is never
deleted and no reducer clears the flag), and whenever every `Finalized`
payload in a stream carries nonnegative totals, ingesting the stream from
a store whose offerings all have nonnegative totals yields a store whose
offerings all have nonnegative totals.  The financial fields themselves
are not immutable after finalization — see the counterexample. -/
theorem finalized_flag_persists_and_totals_nonneg (now : Int)
    (es : List Event) (s : Store) :
    (∀ o ∈ s.offerings, o.is_finalized = true →
      ∃ o2 ∈ (ingest_events now es s).offerings,
        o2.internal_asset_id = o.internal_asset_id ∧ o2.is_finalized = true) ∧
    ((∀ e ∈ es, nonnegEvent e = true) → nonnegOfferings s →
      nonnegOfferings (ingest_events now es s)) :=
  ⟨events_finalized_persists now es s, events_nonneg now es s⟩

def c1cfg : OfferingConfiguredPayload :=
  ⟨⟨some "A", none, none, none, none, none, none⟩,
   "REG_D", 100, 0, 0, 0, "USD", some "0xT1"⟩

def c1cfg2 : OfferingConfiguredPayload :=
  { c1cfg with max_raise_amount := 200 }

def c1fin : FinalizedPayload := ⟨some "0xT1", -5, 3, some 1⟩

/-- C1 counterexample: configure an offering (`max_raise_amount = 100`,
hash 0xT1), finalize it with `total_committed = -5`, then replay an
`OfferingConfigured` for the same asset with `max_raise_amount = 200`.
After finalization the row has `is_finalized = true` and the reachable
total `-5` is negative, and the third event changes the financial field
`max_raise_amount` of the finalized row from 100 to 200. -/
theorem finalized_immutability_counterexample :
    ((ingest_events 0 [Event.OfferingConfigured c1cfg, Event.Finalized c1fin]
        emptyStore).offerings.map
        (fun o => (o.is_finalized, o.total_committed, o.max_raise_amount))
      = [(true, -5, 100)]) ∧
    ((ingest_events 0 [Event.OfferingConfigured c1cfg, Event.Finalized c1fin,
        Event.OfferingConfigured c1cfg2] emptyStore).offerings.map
        (fun o => (o.is_finalized, o.total_committed, o.max_raise_amount))
      = [(true, -5, 200)]) := by
  decide

def c1wRow : Offering :=
  ⟨some "A", "REG_D", 100, 0, 0, 0, "USD", some "A", 2, 2, true, some 1,
   some "0xT1"⟩

def c1wStore : Store := { emptyStore with offerings := [c1wRow] }

def c1finPos : FinalizedPayload := ⟨some "0xT1", 7, 8, some 2⟩

theorem finalized_flag_persists_and_totals_nonneg_witness :
    (∃ o2 ∈ (ingest_events 0 [Event.Finalized c1finPos] c1wStore).offerings,
      o2.internal_asset_id = c1wRow.internal_asset_id ∧
      o2.is_finalized = true) ∧
    nonnegOfferings (ingest_events 0 [Event.Finalized c1finPos] c1wStore) :=
  ⟨(finalized_flag_persists_and_totals_nonneg 0 [Event.Finalized c1finPos]
      c1wStore).1 c1wRow (by decide) (by decide),
   (finalized_flag_persists_and_totals_nonneg 0 [Event.Finalized c1finPos]
      c1wStore).2 (by decide) (by unfold nonnegOfferings; decide)⟩

end Issuance

namespace Recon

theorem clearstream_try_ok_shape (creds : CredMap) (record : RSettlementRecord)
    (mapping : RCSDMapping) (net : NetResult)
    (r : (Bool × Option String) × Nat)
    (h : clearstream_try creds record mapping net = Except.ok r) :
    r.1 = (true, none) ∨ ∃ msg, r.1 = (false, some msg) := by
  unfold clearstream_try at h
  split at h
  · injection h with h2
    subst h2
    right; exact ⟨_, rfl⟩
  · split at h
    · exact Except.noConfusion h
    · split at h
      · split at h
        · exact Except.noConfusion h
        · dsimp only [] at h
          split at h
          · injection h with h2
            subst h2
            left; rfl
          · injection h with h2
            subst h2
            right; exact ⟨_, rfl⟩
      · injection h with h2
        subst h2
        right; exact ⟨_, rfl⟩

theorem clearstream_result_shape (creds : CredMap) (record : RSettlementRecord)
    (mapping : RCSDMapping) (net : NetResult) :
    (reconcile_clearstream creds record mapping net).1 = (true, none) ∨
    ∃ msg, (reconcile_clearstream creds record mapping net).1 = (false, some msg) := by
  unfold reconcile_clearstream
  cases htry : clearstream_try creds record mapping net with
  | ok r => exact clearstream_try_ok_shape creds record mapping net r htry
  | error e => right; exact ⟨_, rfl⟩

theorem euroclear_try_ok_shape (creds : CredMap) (record : RSettlementRecord)
    (mapping : RCSDMapping) (net : NetResult)
    (r : (Bool × Option String) × Nat)
    (h : euroclear_try creds record mapping net = Except.ok r) :
    r.1 = (true, none) ∨ ∃ msg, r.1 = (false, some msg) := by
  unfold euroclear_try at h
  split at h
  · injection h with h2
    subst h2
    right; exact ⟨_, rfl⟩
  · split at h
    · exact Except.noConfusion h
    · split at h
      · split at h
        · exact Except.noConfusion h
        · split at h
          · injection h with h2
            subst h2
            left; rfl
          · injection h with h2
            subst h2
            right; exact ⟨_, rfl⟩
      · injection h with h2
        subst h2
        right; exact ⟨_, rfl⟩

theorem dpo_global_try_ok_shape (creds : CredMap) (record : RSettlementRecord)
    (mapping : RCSDMapping) (net : NetResult)
    (r : (Bool × Option String) × Nat)
    (h : dpo_global_try creds record mapping net = Except.ok r) :
    r.1 = (true, none) ∨ ∃ msg, r.1 = (false, some msg) := by
  unfold dpo_global_try at h
  split at h
  · injection h with h2
    subst h2
    right; exact ⟨_, rfl⟩
  · split at h
    · exact Except.noConfusion h
    · split at h
      · split at h
        · exact Except.noConfusion h
        · split at h
          · injection h with h2
            subst h2
            left; rfl
          · injection h with h2
            subst h2
            right; exact ⟨_, rfl⟩
      · injection h with h2
        subst h2
        right; exact ⟨_, rfl⟩

theorem euroclear_result_shape (creds : CredMap) (record : RSettlementRecord)
    (mapping : RCSDMapping) (net : NetResult) :
    (reconcile_euroclear creds record mapping net).1 = (true, none) ∨
    ∃ msg, (reconcile_euroclear creds record mapping net).1 = (false, some msg) := by
  unfold reconcile_euroclear
  cases htry : euroclear_try creds record mapping net with
  | ok r => exact euroclear_try_ok_shape creds record mapping net r htry
  | error e => right; exact ⟨_, rfl⟩

theorem dtcc_result_shape (creds : CredMap) (record : RSettlementRecord)
    (mapping : RCSDMapping) (net : NetResult) :
    (reconcile_dtcc creds record mapping net).1 = (true, none) ∨
    ∃ msg, (reconcile_dtcc creds record mapping net).1 = (false, some msg) := by
  unfold reconcile_dtcc
  split
  · right; exact ⟨_, rfl⟩
  · left; rfl

theorem dpo_global_result_shape (creds : CredMap) (record : RSettlementRecord)
    (mapping : RCSDMapping) (net : NetResult) :
    (reconcile_dpo_global creds record mapping net).1 = (true, none) ∨
    ∃ msg, (reconcile_dpo_global creds record mapping net).1 = (false, some msg) := by
  unfold reconcile_dpo_global
  cases htry : dpo_global_try creds record mapping net with
  | ok r => exact dpo_global_try_ok_shape creds record mapping net r htry
  | error e => right; exact ⟨_, rfl⟩

/-- C6: `reconcile_settlement` never hands a raw exception to its caller:
its value is always a plain `(bool, message)` verdict, which is either the
success pair `(True, None)` or a failure pair `(False, message)` (the
failure pairs are what the spec calls `ProviderUnavailable` /
`Mismatch` / `NotConfigured` outcomes); a raised transport error or a
malformed 200 body is caught at the adapter boundary and converted into
the adapter-prefixed failure message with the call counted; and when the
provider of the mapping has no configured credentials the adapter returns
the not-configured failure with zero HTTP calls issued. -/
theorem reconcile_settlement_exception_safety (creds : CredMap)
    (record : RSettlementRecord) (mapping : RCSDMapping) (net : NetResult) :
    ((reconcile_settlement creds record mapping net).1 = (true, none) ∨
      ∃ msg, (reconcile_settlement creds record mapping net).1 = (false, some msg)) ∧
    (∀ e, net = Except.error e → mapping.csd_system = CSDSystem.CLEARSTREAM →
      creds.hasKey "CLEARSTREAM" = true →
      reconcile_settlement creds record mapping net
        = ((false, some ("Clearstream reconciliation failed: " ++ e)), 1)) ∧
    (∀ resp perr, net = Except.ok resp → resp.status_code = 200 →
      resp.body = Except.error perr →
      mapping.csd_system = CSDSystem.CLEARSTREAM →
      creds.hasKey "CLEARSTREAM" = true →
      reconcile_settlement creds record mapping net
        = ((false, some ("Clearstream reconciliation failed: " ++ perr)), 1)) ∧
    (mapping.csd_system = CSDSystem.CLEARSTREAM →
      creds.hasKey "CLEARSTREAM" = false →
      reconcile_settlement creds record mapping net
        = ((false, some "Clearstream credentials not configured"), 0)) ∧
    (mapping.csd_system = CSDSystem.EUROCLEAR →
      creds.hasKey "EUROCLEAR" = false →
      reconcile_settlement creds record mapping net
        = ((false, some "Euroclear credentials not configured"), 0)) ∧
    (mapping.csd_system = CSDSystem.DTCC →
      creds.hasKey "DTCC" = false →
      reconcile_settlement creds record mapping net
        = ((false, some "DTCC credentials not configured"), 0)) ∧
    (mapping.csd_system = CSDSystem.DPO_GLOBAL →
      creds.hasKey "DPO_GLOBAL" = false →
      reconcile_settlement creds record mapping net
        = ((false, some "DPO Global credentials not configured"), 0)) := by
  obtain ⟨sys, sid, md, act⟩ := mapping
  refine ⟨?_, ?_, ?_, ?_, ?_, ?_, ?_⟩
  · cases sys with
    | CLEARSTREAM =>
      exact clearstream_result_shape creds record
        ⟨CSDSystem.CLEARSTREAM, sid, md, act⟩ net
    | EUROCLEAR =>
      exact euroclear_result_shape creds record
        ⟨CSDSystem.EUROCLEAR, sid, md, act⟩ net
    | DTCC =>
      exact dtcc_result_shape creds record ⟨CSDSystem.DTCC, sid, md, act⟩ net
    | DPO_GLOBAL =>
      exact dpo_global_result_shape creds record
        ⟨CSDSystem.DPO_GLOBAL, sid, md, act⟩ net
    | OTHER v => right; exact ⟨_, rfl⟩
  · intro e hnet hsys hck
    subst hnet
    cases hsys
    simp [reconcile_settlement, reconcile_clearstream, clearstream_try,
      CSDSystem.value, hck]
  · intro resp perr hnet hstatus hbody hsys hck
    subst hnet
    cases hsys
    simp [reconcile_settlement, reconcile_clearstream, clearstream_try,
      CSDSystem.value, hck, hstatus, hbody]
  · intro hsys hck
    cases hsys
    simp [reconcile_settlement, reconcile_clearstream, clearstream_try,
      CSDSystem.value, hck]
  · intro hsys hck
    cases hsys
    simp [reconcile_settlement, reconcile_euroclear, euroclear_try,
      CSDSystem.value, hck]
  · intro hsys hck
    cases hsys
    simp [reconcile_settlement, reconcile_dtcc, CSDSystem.value, hck]
  · intro hsys hck
    cases hsys
    simp [reconcile_settlement, reconcile_dpo_global, dpo_global_try,
      CSDSystem.value, hck]

def c6creds : CredMap := [("CLEARSTREAM", ⟨some "key", some "endpoint"⟩)]

def c6rec : RSettlementRecord :=
  ⟨"0x1", "100", CSDSystem.CLEARSTREAM, "R-1", 0, 0, "0xa"⟩

def c6map : RCSDMapping := ⟨CSDSystem.CLEARSTREAM, some "SEC", [], true⟩

theorem reconcile_settlement_exception_safety_witness :
    reconcile_settlement c6creds c6rec c6map (Except.error "boom")
      = ((false, some "Clearstream reconciliation failed: boom"), 1) ∧
    reconcile_settlement c6creds c6rec c6map
        (Except.ok ⟨200, Except.error "bad json"⟩)
      = ((false, some "Clearstream reconciliation failed: bad json"), 1) ∧
    reconcile_settlement [] c6rec c6map (Except.error "boom")
      = ((false, some "Clearstream credentials not configured"), 0) :=
  ⟨(reconcile_settlement_exception_safety c6creds c6rec c6map
      (Except.error "boom")).2.1 "boom" rfl rfl (by decide),
   (reconcile_settlement_exception_safety c6creds c6rec c6map
      (Except.ok ⟨200, Except.error "bad json"⟩)).2.2.1
      ⟨200, Except.error "bad json"⟩ "bad json" rfl rfl rfl rfl (by decide),
   (reconcile_settlement_exception_safety [] c6rec c6map
      (Except.error "boom")).2.2.2.1 rfl (by decide)⟩

/-- C9: for the Clearstream adapter with credentials configured, a 200
response whose `quantity` field rendered by Python `str` equals the
`units` string of the record yields the success verdict `(True, None)`
(the Reconciled outcome), and a 200 response with a differing quantity
yields `(False, "Unit mismatch: ...")` (a Mismatch outcome carrying the
unit-mismatch reason); exactly one HTTP call is issued either way. -/
theorem clearstream_quantity_comparison (creds : CredMap)
    (record : RSettlementRecord) (mapping : RCSDMapping)
    (data : JObj) (q : JVal)
    (hck : creds.hasKey "CLEARSTREAM" = true)
    (hq : data.get "quantity" = some q) :
    (pyStr q = record.units →
      reconcile_clearstream creds record mapping (Except.ok ⟨200, Except.ok data⟩)
        = ((true, none), 1)) ∧
    (pyStr q ≠ record.units →
      reconcile_clearstream creds record mapping (Except.ok ⟨200, Except.ok data⟩)
        = ((false, some ("Unit mismatch: on-chain=" ++ record.units ++
                         ", CSD=" ++ pyStr q)), 1)) := by
  constructor
  · intro heq
    simp [reconcile_clearstream, clearstream_try, CSDSystem.value, hck, hq, heq]
  · intro hne
    simp [reconcile_clearstream, clearstream_try, CSDSystem.value, hck, hq, hne]

def c9creds : CredMap := [("CLEARSTREAM", ⟨some "key", some "endpoint"⟩)]

def c9rec : RSettlementRecord :=
  ⟨"0xI", "100", CSDSystem.CLEARSTREAM, "CLSTM-2025-001", 0, 0, "0xh"⟩

def c9map : RCSDMapping := ⟨CSDSystem.CLEARSTREAM, some "US0378331005", [], true⟩

theorem clearstream_quantity_comparison_witness :
    reconcile_clearstream c9creds c9rec c9map
        (Except.ok ⟨200, Except.ok [("quantity", JVal.jnum 100)]⟩)
      = ((true, none), 1) ∧
    reconcile_clearstream c9creds c9rec c9map
        (Except.ok ⟨200, Except.ok [("quantity", JVal.jnum 99)]⟩)
      = ((false, some ("Unit mismatch: on-chain=100, CSD=99")), 1) :=
  ⟨(clearstream_quantity_comparison c9creds c9rec c9map
      [("quantity", JVal.jnum 100)] (JVal.jnum 100) (by decide) (by decide)).1
      (by decide),
   (clearstream_quantity_comparison c9creds c9rec c9map
      [("quantity", JVal.jnum 99)] (JVal.jnum 99) (by decide) (by decide)).2
      (by decide)⟩

/-- C4 (amended): the map returned by `batch_reconcile` is keyed by the
external reference of each record, and the entry found for a pair is
computed from that pair alone — the surrounding pairs `pre` and `post`
are arbitrary and may error without affecting it; when several pairs
share an external reference, the pair occurring last in the input list
wins, for every completion schedule, because `asyncio.gather` returns
results in task-submission order. -/
theorem batch_reconcile_keyed_isolated_last_input_wins (creds : CredMap)
    (pre post : List BPair) (p : BPair) (sched : List Nat)
    (h : ∀ q ∈ post, q.record.external_ref ≠ p.record.external_ref) :
    dlookup (batch_reconcile creds (pre ++ p :: post) sched)
        p.record.external_ref
      = some (mkEntry (reconcile_settlement creds p.record p.mapping p.net).1) := by
  unfold batch_reconcile
  rw [dlookup_fold]
  have hes : batchEntries creds (pre ++ p :: post)
      = batchEntries creds pre ++
        (p.record.external_ref,
          mkEntry (reconcile_settlement creds p.record p.mapping p.net).1)
        :: batchEntries creds post := by
    unfold batchEntries
    rw [List.map_append, List.map_cons]
  rw [hes, List.reverse_append, List.reverse_cons, List.find?_append,
    List.find?_append]
  have hnone : (batchEntries creds post).reverse.find?
      (fun rd => decide (rd.1 = p.record.external_ref)) = none := by
    apply List.find?_eq_none.mpr
    intro rd hrd
    rw [List.mem_reverse] at hrd
    obtain ⟨q, hq, rfl⟩ := List.mem_map.mp hrd
    simp [h q hq]
  rw [hnone]
  simp [List.find?]

def c4creds : CredMap := [("CLEARSTREAM", ⟨some "key", some "endpoint"⟩)]

def c4rec : RSettlementRecord :=
  ⟨"0xI", "100", CSDSystem.CLEARSTREAM, "R", 0, 0, "0xh"⟩

def c4map : RCSDMapping := ⟨CSDSystem.CLEARSTREAM, some "SEC", [], true⟩

/-- Pair 0: verifies successfully (quantity 100 matches units "100"). -/
def c4pair0 : BPair :=
  ⟨c4rec, c4map, Except.ok ⟨200, Except.ok [("quantity", JVal.jnum 100)]⟩⟩

/-- Pair 1: same external reference, mismatching quantity 99. -/
def c4pair1 : BPair :=
  ⟨c4rec, c4map, Except.ok ⟨200, Except.ok [("quantity", JVal.jnum 99)]⟩⟩

/-- C4 counterexample to last-write-wins BY COMPLETION ORDER: two pairs
share the external reference "R"; under the completion schedule [1, 0]
pair 1 finishes first and pair 0 finishes last, so the spec-worded
completion-order map keeps the entry of pair 0 (success), yet
`batch_reconcile` keeps the entry of pair 1 — the later pair in the
input list — because `asyncio.gather` returns results in task order and
the dict is written in that order. -/
theorem batch_reconcile_completion_order_counterexample :
    dlookup (batch_reconcile c4creds [c4pair0, c4pair1] [1, 0]) "R"
      = some ⟨false, some "Unit mismatch: on-chain=100, CSD=99"⟩ ∧
    dlookup (spec_byCompletionMap c4creds [c4pair0, c4pair1] [1, 0]) "R"
      = some ⟨true, none⟩ ∧
    (⟨false, some "Unit mismatch: on-chain=100, CSD=99"⟩ : BEntry)
      ≠ ⟨true, none⟩ := by
  decide

/-- Pair with a raising adapter call, isolating failure in the batch. -/
def c4pairErr : BPair := ⟨⟨"0xE", "7", CSDSystem.CLEARSTREAM, "E", 0, 0, "0xe"⟩,
  c4map, Except.error "timeout"⟩

/-- Pair with a distinct reference after the duplicate. -/
def c4pairS : BPair := ⟨⟨"0xS", "5", CSDSystem.CLEARSTREAM, "S", 0, 0, "0xs"⟩,
  c4map, Except.ok ⟨503, Except.error "no body"⟩⟩

theorem batch_reconcile_keyed_isolated_last_input_wins_witness :
    dlookup (batch_reconcile c4creds ([c4pairErr, c4pair0] ++ c4pair1 :: [c4pairS])
        [3, 1, 0, 2]) c4pair1.record.external_ref
      = some (mkEntry
          (reconcile_settlement c4creds c4pair1.record c4pair1.mapping
            c4pair1.net).1) :=
  batch_reconcile_keyed_isolated_last_input_wins c4creds [c4pairErr, c4pair0]
    [c4pairS] c4pair1 [3, 1, 0, 2] (by decide)

end Recon
